import Mathlib

/-!
Verification development for the live-transcription orchestrator
(`src/src/lib/real-transcriber.ts`, class `RealTranscriber`).

The class is embedded as a state machine: the mutable fields of the
TypeScript object become fields of `TState`, and every callback / event
handler of the class becomes a pure function `TState → ... → TState`.
Externally observable effects (invocations of the transcript callback,
network submissions, releases of the media stream tracks, calls of
`recognition.start` / `recognition.stop` / `mediaRecorder.stop`,
`clearInterval`) are recorded in dedicated log / counter fields so that
claims about effect counts are stateable.

Asynchrony is made explicit: `await fetch` inside `processAudioChunk`
splits the method into a send phase and a completion phase, and the
`mediaRecorder.onstop` handler (which the host fires asynchronously
after `mediaRecorder.stop()` returns) is a separate event, matching the
single-threaded cooperative event model of the host environment.
-/

namespace MeetingNotes

/-- An audio Blob pushed by `mediaRecorder.ondataavailable`: a byte size
plus an opaque tag giving the fragment its identity. -/
structure Blob where
  size : Nat
  tag : Nat
deriving DecidableEq, Repr

/-- The parsed JSON body of a `/api/transcribe` response, as the code reads
it: `result.success`, and `result.data` (absent = `none`) holding an
optional `transcript` field (absent = `none`; present possibly empty). -/
structure Response where
  success : Bool
  data : Option (Option String)
deriving DecidableEq, Repr

/-- What the code observes after `await fetch` and `await response.json()`:
either some step threw (fetch rejection / abort-timeout, the explicit
`throw` on `!response.ok`, a JSON parse error, or the TypeError raised by
reading `.transcript` off an absent `data`) and control reaches `catch`,
or a parsed body was obtained. The absent-`data` TypeError is modelled in
the completion function itself, from `Response.data = none`. -/
inductive FetchOutcome
  | thrown
  | responded (r : Response)
deriving DecidableEq, Repr

/-- The state of a `RealTranscriber` instance together with its observable
effect history. Fields up to `inflight` mirror the TypeScript fields;
the rest record effects. `pendingStop` marks a queued
`mediaRecorder.onstop` dispatch, `pendingRestarts` counts restart
timeouts scheduled by `recognition.onend` that have not fired yet, and
`inflight` marks a chunk submission whose response is still awaited. -/
structure TState where
  isRecording : Bool
  useBrowserRecognition : Bool
  recognitionAvail : Bool
  mediaRecorderOn : Bool
  stream : Bool
  processingInterval : Bool
  accumulatedTranscript : String
  retryCount : Nat
  lastProcessedChunk : Nat
  audioChunks : List Blob
  pendingRestarts : Nat
  pendingStop : Bool
  inflight : Bool
  outputs : List String
  submissions : List (List Blob)
  finalSubmissions : List (List Blob)
  recStartCount : Nat
  recStopCount : Nat
  mediaStopCount : Nat
  clearIntervalCount : Nat
  trackStops : Nat
deriving DecidableEq, Repr

/-- The fixed retry ceiling `maxRetries = 3`. -/
def maxRetries : Nat := 3

/-- The minimum chunk byte size below which `processAudioChunk` skips the
network call. -/
def minChunkBytes : Nat := 1000

/-- Record an invocation of the `onTranscriptUpdate` callback. -/
def emit (s : TState) (t : String) : TState :=
  { s with outputs := s.outputs ++ [t] }

/-- State of a freshly constructed `RealTranscriber`, parameterised by
whether the host exposes a speech-recognition capability
(`this.recognition !== null`). -/
def init (recAvail : Bool) : TState :=
  { isRecording := false
    useBrowserRecognition := false
    recognitionAvail := recAvail
    mediaRecorderOn := false
    stream := false
    processingInterval := false
    accumulatedTranscript := ""
    retryCount := 0
    lastProcessedChunk := 0
    audioChunks := []
    pendingRestarts := 0
    pendingStop := false
    inflight := false
    outputs := []
    submissions := []
    finalSubmissions := []
    recStartCount := 0
    recStopCount := 0
    mediaStopCount := 0
    clearIntervalCount := 0
    trackStops := 0 }

/-- The `start` method on its success path (stream granted): resets the
transcript, marks recording, then either starts browser recognition or
creates the MediaRecorder and the 3-second processing interval. -/
def start (s : TState) : TState :=
  let s1 := { s with stream := true
                     accumulatedTranscript := ""
                     isRecording := true }
  if s1.recognitionAvail then
    { s1 with useBrowserRecognition := true
              recStartCount := s1.recStartCount + 1 }
  else
    { s1 with useBrowserRecognition := false
              mediaRecorderOn := true
              audioChunks := []
              processingInterval := true }

/-- Concatenation of the final results of one `onresult` event, in event
order, exactly as `finalTranscript += transcript` builds it (no
separator between results of the same event). Each list entry is a
result `(isFinal, transcript)`. -/
def joinFinals (rs : List (Bool × String)) : String :=
  rs.foldl (fun acc r => if r.1 then acc ++ r.2 else acc) ""

/-- Concatenation of the interim results of one `onresult` event, as
`interimTranscript += transcript` builds it. -/
def joinInterims (rs : List (Bool × String)) : String :=
  rs.foldl (fun acc r => if r.1 then acc else acc ++ r.2) ""

/-- The accumulation step
`accumulatedTranscript += (accumulatedTranscript ? ' ' : '') + t`:
a single separating space unless the accumulator is still empty. -/
def appendFinal (acc t : String) : String :=
  if acc = "" then t else acc ++ " " ++ t

/-- The `recognition.onresult` handler: if the event carried any final
text, append it to the accumulated transcript and invoke the callback
with the new accumulated value; otherwise, if it carried interim text,
invoke the callback with accumulated text, a space, and the interim
suffix, leaving the accumulated state untouched. -/
def onresult (s : TState) (rs : List (Bool × String)) : TState :=
  let fin := joinFinals rs
  let inter := joinInterims rs
  if fin ≠ "" then
    let acc := appendFinal s.accumulatedTranscript fin
    { s with accumulatedTranscript := acc, outputs := s.outputs ++ [acc] }
  else if inter ≠ "" then
    emit s (s.accumulatedTranscript ++ " " ++ inter)
  else s

/-- The `handleRecognitionError` method: `no-speech` is ignored; the three
known kinds and the default case each pass the accumulated transcript
with a bracketed marker to the callback. No other field changes. -/
def handleRecognitionError (s : TState) (err : String) : TState :=
  if err = "no-speech" then s
  else if err = "audio-capture" then
    emit s (s.accumulatedTranscript ++ " [Audio capture failed]")
  else if err = "not-allowed" then
    emit s (s.accumulatedTranscript ++ " [Microphone access denied]")
  else if err = "network" then
    emit s (s.accumulatedTranscript ++ " [Network error]")
  else
    emit s (s.accumulatedTranscript ++ " [Speech recognition error]")

/-- The `recognition.onend` handler: when still recording on the browser
path, schedule one restart timeout (100 ms). -/
def onend (s : TState) : TState :=
  if s.isRecording && s.useBrowserRecognition then
    { s with pendingRestarts := s.pendingRestarts + 1 }
  else s

/-- Firing of one restart timeout scheduled by `onend`: if still recording
and the recognition object exists, `recognition.start()` is called. -/
def restartTimerFire (s : TState) : TState :=
  if s.pendingRestarts > 0 then
    let s1 := { s with pendingRestarts := s.pendingRestarts - 1 }
    if s.isRecording && s.recognitionAvail then
      { s1 with recStartCount := s1.recStartCount + 1 }
    else s1
  else s

/-- The `mediaRecorder.ondataavailable` handler: a non-empty Blob is pushed
onto `audioChunks`. -/
def ondataavailable (s : TState) (b : Blob) : TState :=
  if b.size > 0 then { s with audioChunks := s.audioChunks ++ [b] } else s

/-- The `stop` method. Guarded by `isRecording`; sets it false, stops the
active strategy (recognition, else the media recorder, whose `onstop`
dispatch is queued), clears the processing interval, and releases the
stream tracks, nulling the stream. -/
def stop (s : TState) : TState :=
  if s.isRecording then
    let s1 := { s with isRecording := false }
    let s2 :=
      if s1.useBrowserRecognition && s1.recognitionAvail then
        { s1 with recStopCount := s1.recStopCount + 1 }
      else if s1.mediaRecorderOn then
        { s1 with mediaStopCount := s1.mediaStopCount + 1, pendingStop := true }
      else s1
    let s3 :=
      if s2.processingInterval then
        { s2 with processingInterval := false
                  clearIntervalCount := s2.clearIntervalCount + 1 }
      else s2
    if s3.stream then
      { s3 with stream := false, trackStops := s3.trackStops + 1 }
    else s3
  else s

/-- The JavaScript `String.prototype.trim()`: strip leading and trailing
whitespace. Written as a structurally recursive character-list
computation so that concrete instances reduce inside the kernel. -/
def jsTrim (s : String) : String :=
  ⟨((s.data.dropWhile Char.isWhitespace).reverse.dropWhile Char.isWhitespace).reverse⟩

/-- Byte size of `new Blob(chunks)`: the sum of the part sizes. -/
def blobSize (l : List Blob) : Nat :=
  (l.map Blob.size).sum

/-- Send phase of `processAudioChunk`, up to the `await fetch`: the early
return when there is nothing new, the slice of new chunks, the
small-chunk skip (which advances `lastProcessedChunk` without a network
call), and otherwise the POST of the sliced Blob. Returns the new state
and whether a request is now in flight. -/
def processAudioChunkSend (s : TState) : TState × Bool :=
  if s.audioChunks.length = 0 ∨ s.audioChunks.length ≤ s.lastProcessedChunk then
    (s, false)
  else
    let newChunks := s.audioChunks.drop s.lastProcessedChunk
    if blobSize newChunks < minChunkBytes then
      ({ s with lastProcessedChunk := s.audioChunks.length }, false)
    else
      ({ s with submissions := s.submissions ++ [newChunks], inflight := true }, true)

/-- The `catch` branch of `processAudioChunk`: increment the retry counter;
on reaching `maxRetries` pass the accumulated transcript plus the
degradation marker to the callback and reset the counter.
`lastProcessedChunk` is not touched here. -/
def chunkCatch (s : TState) : TState :=
  let rc := s.retryCount + 1
  if rc ≥ maxRetries then
    { s with retryCount := 0
             outputs := s.outputs ++
               [s.accumulatedTranscript ++ " [Transcription temporarily unavailable]"] }
  else
    { s with retryCount := rc }

/-- Completion phase of `processAudioChunk`, after `await fetch` resolves:
a thrown outcome reaches `catch`; a parsed body with `success` true and
an absent `data` throws a TypeError at `result.data.transcript` and also
reaches `catch`; a truthy transcript is trimmed and, if still non-empty,
appended to the accumulated transcript, the callback invoked and the
retry counter reset; every non-throwing path then sets
`lastProcessedChunk` to the current `audioChunks.length`. -/
def processAudioChunkComplete (s : TState) (o : FetchOutcome) : TState :=
  match o with
  | .thrown => chunkCatch s
  | .responded r =>
    if r.success then
      match r.data with
      | none => chunkCatch s
      | some tOpt =>
        match tOpt with
        | some t =>
          if t ≠ "" then
            let nt := jsTrim t
            let s1 :=
              if nt ≠ "" then
                let acc := appendFinal s.accumulatedTranscript nt
                { s with accumulatedTranscript := acc
                         outputs := s.outputs ++ [acc]
                         retryCount := 0 }
              else s
            { s1 with lastProcessedChunk := s1.audioChunks.length }
          else
            { s with lastProcessedChunk := s.audioChunks.length }
        | none =>
          { s with lastProcessedChunk := s.audioChunks.length }
    else
      { s with lastProcessedChunk := s.audioChunks.length }

/-- One uninterrupted run of `processAudioChunk` (no event fires between
send and completion), the response resolving to `o`. -/
def processAudioChunk (s : TState) (o : FetchOutcome) : TState :=
  let (s1, sent) := processAudioChunkSend s
  if sent then processAudioChunkComplete { s1 with inflight := false } o else s1

/-- The `processAudio` method run by `mediaRecorder.onstop`: the whole
`audioChunks` list is packaged into one Blob and POSTed; a truthy
transcript is trimmed and passed to the callback on its own
(not appended to the accumulated transcript); every other outcome (throw,
`success` false, absent or empty transcript) lands in `catch` and passes
a fixed error string to the callback. -/
def processAudio (s : TState) (o : FetchOutcome) : TState :=
  let s1 := { s with finalSubmissions := s.finalSubmissions ++ [s.audioChunks] }
  let errMsg := "Error: Failed to transcribe audio. Please try again."
  match o with
  | .thrown => emit s1 errMsg
  | .responded r =>
    if r.success then
      match r.data with
      | none => emit s1 errMsg
      | some tOpt =>
        match tOpt with
        | some t => if t ≠ "" then emit s1 (jsTrim t) else emit s1 errMsg
        | none => emit s1 errMsg
    else emit s1 errMsg

/-- Events delivered to the single logical thread: audio data, recognition
results / errors / end, the restart timeout firing, the windowing
interval firing (atomically with its response, or split into send and
completion to expose the await point), a `stop()` call, and the deferred
`mediaRecorder.onstop` dispatch carrying the final-flush outcome. -/
inductive Ev
  | dataAvail (b : Blob)
  | result (rs : List (Bool × String))
  | recError (kind : String)
  | recEnd
  | restartTimer
  | tick (o : FetchOutcome)
  | tickSend
  | tickComplete (o : FetchOutcome)
  | stopEv
  | recorderStopped (o : FetchOutcome)
deriving Repr

/-- The interval callback guard: the interval must still be registered and
`audioChunks` non-empty. -/
def tickGuard (s : TState) : Bool :=
  s.processingInterval && decide (s.audioChunks.length > 0)

/-- Dispatch of one event. -/
def step (s : TState) (e : Ev) : TState :=
  match e with
  | .dataAvail b => ondataavailable s b
  | .result rs => onresult s rs
  | .recError k => handleRecognitionError s k
  | .recEnd => onend s
  | .restartTimer => restartTimerFire s
  | .tick o => if tickGuard s then processAudioChunk s o else s
  | .tickSend => if tickGuard s then (processAudioChunkSend s).1 else s
  | .tickComplete o =>
      if s.inflight then processAudioChunkComplete { s with inflight := false } o else s
  | .stopEv => stop s
  | .recorderStopped o =>
      if s.pendingStop then
        let s1 := { s with pendingStop := false }
        if s1.audioChunks.length > 0 then processAudio s1 o else s1
      else s

/-- Run of a sequence of events. -/
def run (s : TState) (evs : List Ev) : TState :=
  evs.foldl step s

/-- Join of a list of text fragments by a single separating space, written
from the specification's words (the claimed rendering of the final
portion). -/
def joinSpace : List String → String
  | [] => ""
  | [t] => t
  | t :: ts => t ++ " " ++ joinSpace ts

/-- The per-event final texts of a sequence of `onresult` events: the
concatenated final portion of each event, empty ones dropped. -/
def finalsOf (rss : List (List (Bool × String))) : List String :=
  (rss.map joinFinals).filter (fun t => t != "")

/-! Helper lemmas. -/

lemma append_ne_empty (a b : String) (h : a ≠ "") : a ++ b ≠ "" := by
  intro hab
  apply h
  have h2 := congrArg String.data hab
  rw [String.data_append] at h2
  exact String.ext (List.append_eq_nil.mp h2).1

lemma joinSpace_glue (a b : String) (l : List String) :
    joinSpace ((a ++ " " ++ b) :: l) = a ++ " " ++ joinSpace (b :: l) := by
  cases l with
  | nil => simp [joinSpace]
  | cons c cs => simp [joinSpace, String.append_assoc]

lemma foldl_appendFinal (l : List String) (t : String) (h : ∀ x ∈ l, x ≠ "") :
    List.foldl appendFinal t l = if t = "" then joinSpace l else joinSpace (t :: l) := by
  induction l generalizing t with
  | nil => by_cases ht : t = "" <;> simp [joinSpace, ht]
  | cons u us ih =>
    have hu : u ≠ "" := h u (by simp)
    have hus : ∀ x ∈ us, x ≠ "" := fun x hx => h x (by simp [hx])
    by_cases ht : t = ""
    · have h1 : appendFinal t u = u := by simp [appendFinal, ht]
      rw [List.foldl_cons, h1, ih u hus, if_pos ht, if_neg hu]
    · have h1 : appendFinal t u = t ++ " " ++ u := by simp [appendFinal, ht]
      have h2 : t ++ " " ++ u ≠ "" := append_ne_empty _ _ (append_ne_empty _ _ ht)
      rw [List.foldl_cons, h1, ih _ hus, if_neg h2, if_neg ht, joinSpace_glue]
      cases us with
      | nil => simp [joinSpace]
      | cons v vs => simp [joinSpace]

lemma onresult_accum (s : TState) (rs : List (Bool × String)) :
    (onresult s rs).accumulatedTranscript
      = if joinFinals rs = "" then s.accumulatedTranscript
        else appendFinal s.accumulatedTranscript (joinFinals rs) := by
  by_cases hf : joinFinals rs = ""
  · simp only [onresult, hf, if_pos rfl, ne_eq, not_true_eq_false, if_false, if_true]
    split <;> simp [emit]
  · simp [onresult, hf]

lemma finalsOf_cons (rs : List (Bool × String)) (rss : List (List (Bool × String))) :
    finalsOf (rs :: rss)
      = if joinFinals rs = "" then finalsOf rss else joinFinals rs :: finalsOf rss := by
  by_cases hf : joinFinals rs = "" <;> simp [finalsOf, List.filter_cons, hf]

lemma finalsOf_ne_empty (rss : List (List (Bool × String))) :
    ∀ x ∈ finalsOf rss, x ≠ "" := by
  intro x hx
  have := List.of_mem_filter hx
  simpa using this

lemma run_cons (s : TState) (e : Ev) (evs : List Ev) :
    run s (e :: evs) = run (step s e) evs := rfl

lemma run_result_accum (rss : List (List (Bool × String))) (s : TState) :
    (run s (rss.map Ev.result)).accumulatedTranscript
      = List.foldl appendFinal s.accumulatedTranscript (finalsOf rss) := by
  induction rss generalizing s with
  | nil => rfl
  | cons rs rss ih =>
    rw [List.map_cons, run_cons]
    have hstep : step s (Ev.result rs) = onresult s rs := rfl
    rw [hstep, ih, onresult_accum, finalsOf_cons]
    by_cases hf : joinFinals rs = ""
    · simp [hf]
    · simp [hf, appendFinal, List.foldl_cons]

/-! Claim C1. -/

/-- C1, counterexample: one `result` event carrying the two final fragments
"Hello" and "world" yields the accumulated transcript "Helloworld" —
`finalTranscript += transcript` concatenates finals of the same event
without any separator — not the space-joined "Hello world" the claim
requires for every delivered sequence of final fragments. -/
theorem C1_counterexample :
    (step (start (init true)) (Ev.result [(true, "Hello"), (true, "world")])).accumulatedTranscript
        = "Helloworld"
    ∧ (step (start (init true)) (Ev.result [(true, "Hello"), (true, "world")])).accumulatedTranscript
        ≠ joinSpace ["Hello", "world"] := by
  constructor
  · rfl
  · decide

/-- C1 as amended: over any sequence of continuous-recognition `result`
events (interim fragments interleaved arbitrarily), the accumulated
transcript equals the space-join of the per-event final texts — the
final fragments of one event first concatenated without separator, and
events with no (or only empty) final text dropped. On the chunked side,
a successful submission whose transcript is non-empty after trimming is
merged with the same single-space append rule. -/
theorem C1_amended :
    (∀ rss : List (List (Bool × String)),
        (run (start (init true)) (rss.map Ev.result)).accumulatedTranscript
          = joinSpace (finalsOf rss))
    ∧ (∀ (s : TState) (t : String), jsTrim t ≠ "" →
        (processAudioChunkComplete s (.responded ⟨true, some (some t)⟩)).accumulatedTranscript
          = appendFinal s.accumulatedTranscript (jsTrim t)) := by
  constructor
  · intro rss
    rw [run_result_accum]
    have h0 : (start (init true)).accumulatedTranscript = "" := rfl
    rw [h0, foldl_appendFinal _ _ (finalsOf_ne_empty rss), if_pos rfl]
  · intro s t ht
    have ht2 : t ≠ "" := by
      intro h
      rw [h] at ht
      exact ht rfl
    simp [processAudioChunkComplete, ht, ht2]

/-- C1 witness: the amended merge rule evaluated on the concrete chunked
response transcript " hello ". -/
theorem C1_amended_witness :
    (processAudioChunkComplete (start (init false))
        (.responded ⟨true, some (some " hello ")⟩)).accumulatedTranscript
      = appendFinal (start (init false)).accumulatedTranscript (jsTrim " hello ") :=
  C1_amended.2 (start (init false)) " hello " (by decide)

/-! Claim C2. -/

/-- C2, counterexample: a submission that completes with a parsed body
`{ success: false }` — an unsuccessful response, which the claim counts
as a failed submission — leaves the retry counter at 0 instead of
incrementing it: the code only increments in `catch`, and a well-formed
unsuccessful body reaches the `else` branch, not `catch`. The first
conjunct shows a submission did occur. -/
theorem C2_counterexample :
    (run (start (init false)) [Ev.dataAvail ⟨1500, 1⟩,
        Ev.tick (.responded ⟨false, none⟩)]).submissions.length = 1
    ∧ (run (start (init false)) [Ev.dataAvail ⟨1500, 1⟩,
        Ev.tick (.responded ⟨false, none⟩)]).retryCount = 0 := by
  constructor <;> rfl

/-- C2 as amended: only submissions that throw (network error, timeout,
non-OK status, malformed JSON, or a body with `success` true but no
`data` object) increment the retry counter; below the ceiling nothing
else changes, and on reaching the ceiling of 3 exactly one degradation
marker is passed to the callback and the counter resets to zero, the
pipeline otherwise untouched (so the next failure starts a fresh cycle).
A successful submission with non-empty trimmed transcript resets the
counter; a well-formed response that is unsuccessful, or whose `data`
object carries no non-empty trimmed transcript (field absent, empty, or
whitespace-only), leaves the counter unchanged. -/
theorem C2_amended :
    ∀ s : TState,
      (s.retryCount + 1 < maxRetries →
        processAudioChunkComplete s .thrown = { s with retryCount := s.retryCount + 1 })
      ∧ (s.retryCount + 1 ≥ maxRetries →
        processAudioChunkComplete s .thrown
          = { s with retryCount := 0,
                     outputs := s.outputs ++
                       [s.accumulatedTranscript ++ " [Transcription temporarily unavailable]"] })
      ∧ (∀ t : String, jsTrim t ≠ "" →
          (processAudioChunkComplete s (.responded ⟨true, some (some t)⟩)).retryCount = 0)
      ∧ (∀ r : Response, r.success = false →
          (processAudioChunkComplete s (.responded r)).retryCount = s.retryCount)
      ∧ ((processAudioChunkComplete s (.responded ⟨true, some none⟩)).retryCount = s.retryCount)
      ∧ (∀ t : String, jsTrim t = "" →
          (processAudioChunkComplete s (.responded ⟨true, some (some t)⟩)).retryCount
            = s.retryCount) := by
  intro s
  refine ⟨fun h => ?_, fun h => ?_, fun t ht => ?_, fun r hr => ?_, ?_, fun t htr => ?_⟩
  · simp only [processAudioChunkComplete, chunkCatch]
    rw [if_neg (by omega)]
  · simp only [processAudioChunkComplete, chunkCatch]
    rw [if_pos (by omega)]
  · have ht2 : t ≠ "" := by
      intro h
      rw [h] at ht
      exact ht rfl
    simp [processAudioChunkComplete, ht, ht2]
  · simp [processAudioChunkComplete, hr]
  · simp [processAudioChunkComplete]
  · simp [processAudioChunkComplete, htr] <;> split_ifs <;> rfl

/-- C2 witness: the amended retry rule evaluated at a state two failures
deep — the third thrown failure emits the single degradation marker and
resets the counter. -/
theorem C2_amended_witness :
    processAudioChunkComplete { start (init false) with retryCount := 2 } .thrown
      = { { start (init false) with retryCount := 2 } with
          retryCount := 0,
          outputs := { start (init false) with retryCount := 2 }.outputs ++
            [{ start (init false) with retryCount := 2 }.accumulatedTranscript ++
              " [Transcription temporarily unavailable]"] } :=
  (C2_amended { start (init false) with retryCount := 2 }).2.1 (by decide)

/-! Claim C3. -/

/-- C3, confirmed: from a state recording on the continuous path with no
restart timer pending, an `end` event followed by the timer firing
invokes exactly one `recognition.start`; a further firing adds none; and
if `stop()` arrives before the `end` event or between the `end` event
and the firing, no restart is invoked at all. -/
theorem C3_restart_supervision :
    ∀ s : TState,
      s.isRecording = true → s.useBrowserRecognition = true →
      s.recognitionAvail = true → s.pendingRestarts = 0 →
        (run s [Ev.recEnd, Ev.restartTimer]).recStartCount = s.recStartCount + 1
      ∧ (run s [Ev.recEnd, Ev.restartTimer, Ev.restartTimer]).recStartCount = s.recStartCount + 1
      ∧ (run s [Ev.recEnd, Ev.stopEv, Ev.restartTimer]).recStartCount = s.recStartCount
      ∧ (run s [Ev.stopEv, Ev.recEnd, Ev.restartTimer]).recStartCount = s.recStartCount := by
  intro s h1 h2 h3 h4
  obtain ⟨ir, ubr, ra, mro, st, pi, atx, rc, lpc, ac, pr, ps, infl, out, sub, fsub,
    rsc, rstc, msc, cic, ts⟩ := s
  dsimp only at h1 h2 h3 h4
  subst h1 h2 h3 h4
  refine ⟨?_, ?_, ?_, ?_⟩ <;> cases pi <;> cases st <;>
    simp [run, step, onend, restartTimerFire, stop]

/-- C3 witness: the restart supervision facts evaluated on a freshly
started continuous-path session. -/
theorem C3_restart_supervision_witness :
    (run (start (init true)) [Ev.recEnd, Ev.restartTimer]).recStartCount
        = (start (init true)).recStartCount + 1
    ∧ (run (start (init true)) [Ev.recEnd, Ev.stopEv, Ev.restartTimer]).recStartCount
        = (start (init true)).recStartCount :=
  ⟨(C3_restart_supervision (start (init true)) rfl rfl rfl rfl).1,
   (C3_restart_supervision (start (init true)) rfl rfl rfl rfl).2.2.1⟩

/-! Claim C9. -/

/-- C9, confirmed: when the windowing timer fires with newly collected
fragments whose total byte size is below the 1000-byte threshold, the
whole step is exactly an advance of the window position: no network
submission, no transcript change, no retry-counter change, no callback
invocation — for any would-be response outcome. -/
theorem C9_small_chunk_skipped :
    ∀ (s : TState) (o : FetchOutcome),
      s.processingInterval = true →
      s.lastProcessedChunk < s.audioChunks.length →
      blobSize (s.audioChunks.drop s.lastProcessedChunk) < minChunkBytes →
      step s (Ev.tick o) = { s with lastProcessedChunk := s.audioChunks.length } := by
  intro s o h1 h2 h3
  have hne : ¬(s.audioChunks.length = 0 ∨ s.audioChunks.length ≤ s.lastProcessedChunk) := by
    omega
  have hsend : processAudioChunkSend s
      = ({ s with lastProcessedChunk := s.audioChunks.length }, false) := by
    unfold processAudioChunkSend
    rw [if_neg hne, if_pos h3]
  have hg : tickGuard s = true := by
    simp [tickGuard, h1]
    omega
  simp [step, hg, processAudioChunk, hsend]

/-- C9 witness: a single 500-byte fragment is skipped without submission
and the window advances past it. -/
theorem C9_small_chunk_skipped_witness :
    step (run (start (init false)) [Ev.dataAvail ⟨500, 7⟩]) (Ev.tick .thrown)
      = { run (start (init false)) [Ev.dataAvail ⟨500, 7⟩] with
          lastProcessedChunk := (run (start (init false)) [Ev.dataAvail ⟨500, 7⟩]).audioChunks.length } :=
  C9_small_chunk_skipped (run (start (init false)) [Ev.dataAvail ⟨500, 7⟩]) .thrown
    rfl (by decide) (by decide)

/-! Claim C6. -/

/-- C6, counterexample: a 1500-byte fragment is submitted, the request
reaches the endpoint but fails (a thrown non-OK status); the `catch`
branch does not advance `lastProcessedChunk`, so the next window submits
the very same fragment again — the submission log holds the fragment
twice, contradicting that no already-submitted fragment is ever included
in a later chunk's payload. -/
theorem C6_counterexample :
    (run (start (init false)) [Ev.dataAvail ⟨1500, 1⟩, Ev.tick .thrown,
        Ev.tick (.responded ⟨true, some (some "x")⟩)]).submissions
      = [[⟨1500, 1⟩], [⟨1500, 1⟩]] := by
  rfl

/-- C6 as amended: each firing of the windowing timer submits exactly the
fragments after the current window position; a firing that reaches a
parsed response without throwing (any body except `success` true with an
absent `data` object, whose TypeError lands in `catch`) advances the
position to the end of the buffer, so those fragments are never
re-submitted; but a firing whose submission throws leaves the position
unchanged, so its fragments are re-included in the next window's payload
as a retry. -/
theorem C6_amended :
    ∀ (s : TState) (o : FetchOutcome),
      s.processingInterval = true →
      s.lastProcessedChunk < s.audioChunks.length →
      minChunkBytes ≤ blobSize (s.audioChunks.drop s.lastProcessedChunk) →
        (step s (Ev.tick o)).submissions
          = s.submissions ++ [s.audioChunks.drop s.lastProcessedChunk]
      ∧ (∀ r : Response, o = .responded r → ¬(r.success = true ∧ r.data = none) →
          (step s (Ev.tick o)).lastProcessedChunk = s.audioChunks.length)
      ∧ (o = .thrown →
          (step s (Ev.tick o)).lastProcessedChunk = s.lastProcessedChunk) := by
  intro s o h1 h2 h3
  have hne : ¬(s.audioChunks.length = 0 ∨ s.audioChunks.length ≤ s.lastProcessedChunk) := by
    omega
  have hsmall : ¬ blobSize (s.audioChunks.drop s.lastProcessedChunk) < minChunkBytes := by
    omega
  have hsend : processAudioChunkSend s
      = ({ s with submissions := s.submissions ++ [s.audioChunks.drop s.lastProcessedChunk],
                  inflight := true }, true) := by
    unfold processAudioChunkSend
    rw [if_neg hne, if_neg hsmall]
  have hg : tickGuard s = true := by
    simp [tickGuard, h1]
    omega
  refine ⟨?_, ?_, ?_⟩
  · cases o with
    | thrown =>
        simp [step, hg, processAudioChunk, hsend, processAudioChunkComplete, chunkCatch] <;>
          split_ifs <;> rfl
    | responded r =>
        obtain ⟨suc, dat⟩ := r
        cases suc <;> rcases dat with _ | _ | t <;>
          simp [step, hg, processAudioChunk, hsend, processAudioChunkComplete, chunkCatch] <;>
          split_ifs <;> simp
  · rintro r rfl hnd
    obtain ⟨suc, dat⟩ := r
    cases suc with
    | false =>
        rcases dat with _ | _ | t <;>
          simp [step, hg, processAudioChunk, hsend, processAudioChunkComplete, chunkCatch] <;>
          split_ifs <;> simp
    | true =>
        rcases dat with _ | _ | t
        · exact absurd ⟨rfl, rfl⟩ hnd
        · simp [step, hg, processAudioChunk, hsend, processAudioChunkComplete, chunkCatch] <;>
            split_ifs <;> simp
        · simp [step, hg, processAudioChunk, hsend, processAudioChunkComplete, chunkCatch] <;>
            split_ifs <;> simp
  · rintro rfl
    simp [step, hg, processAudioChunk, hsend, processAudioChunkComplete, chunkCatch] <;>
      split_ifs <;> rfl

/-- C6 witness: the amended windowing facts evaluated on a buffer holding
one already-submitted and one new fragment. -/
theorem C6_amended_witness :
    (step (run (start (init false)) [Ev.dataAvail ⟨1500, 1⟩]) (Ev.tick .thrown)).submissions
      = (run (start (init false)) [Ev.dataAvail ⟨1500, 1⟩]).submissions ++
          [(run (start (init false)) [Ev.dataAvail ⟨1500, 1⟩]).audioChunks.drop
            (run (start (init false)) [Ev.dataAvail ⟨1500, 1⟩]).lastProcessedChunk] :=
  (C6_amended (run (start (init false)) [Ev.dataAvail ⟨1500, 1⟩]) .thrown
    rfl (by decide) (by decide)).1

/-! Claim C7. -/

/-- C7, counterexample: after a `not-allowed` recognition error the session
is still recording, `recognition.stop` has not been called and no field
but the callback log changed — the code appends the marker but does not
move the session to an error state or stop it, contrary to the claim
that permission-related kinds stop the session. -/
theorem C7_counterexample :
    (step (start (init true)) (Ev.recError "not-allowed")).isRecording = true
    ∧ (step (start (init true)) (Ev.recError "not-allowed")).recStopCount = 0
    ∧ (step (start (init true)) (Ev.recError "not-allowed")).stream = true
    ∧ (step (start (init true)) (Ev.recError "not-allowed")).outputs
        = [" [Microphone access denied]"] := by
  refine ⟨rfl, rfl, rfl, rfl⟩

/-- C7 as amended: `no-speech` is ignored entirely; `audio-capture`,
`not-allowed`, `network` and any unknown kind each append their bracketed
inline marker to the string passed to the callback, preserving the
accumulated text; and for every kind — including the permission-related
`not-allowed` — the session state is otherwise unchanged, so recognition
keeps running and no error state is entered. -/
theorem C7_amended :
    ∀ (s : TState) (k : String),
      (k = "no-speech" → step s (Ev.recError k) = s)
      ∧ (k = "audio-capture" → step s (Ev.recError k)
          = emit s (s.accumulatedTranscript ++ " [Audio capture failed]"))
      ∧ (k = "not-allowed" → step s (Ev.recError k)
          = emit s (s.accumulatedTranscript ++ " [Microphone access denied]"))
      ∧ (k = "network" → step s (Ev.recError k)
          = emit s (s.accumulatedTranscript ++ " [Network error]"))
      ∧ (k ≠ "no-speech" → k ≠ "audio-capture" → k ≠ "not-allowed" → k ≠ "network" →
          step s (Ev.recError k)
            = emit s (s.accumulatedTranscript ++ " [Speech recognition error]"))
      ∧ (step s (Ev.recError k)).isRecording = s.isRecording
      ∧ (step s (Ev.recError k)).recStopCount = s.recStopCount
      ∧ (step s (Ev.recError k)).accumulatedTranscript = s.accumulatedTranscript := by
  intro s k
  refine ⟨fun h => ?_, fun h => ?_, fun h => ?_, fun h => ?_, fun h1 h2 h3 h4 => ?_, ?_, ?_, ?_⟩
  · simp [step, handleRecognitionError, h]
  · simp [step, handleRecognitionError, h]
  · simp [step, handleRecognitionError, h]
  · simp [step, handleRecognitionError, h]
  · simp [step, handleRecognitionError, h1, h2, h3, h4]
  · simp only [step, handleRecognitionError]
    split_ifs <;> simp [emit]
  · simp only [step, handleRecognitionError]
    split_ifs <;> simp [emit]
  · simp only [step, handleRecognitionError]
    split_ifs <;> simp [emit]

/-- C7 witness: the `not-allowed` case evaluated on a freshly started
continuous-path session. -/
theorem C7_amended_witness :
    step (start (init true)) (Ev.recError "not-allowed")
      = emit (start (init true))
          ((start (init true)).accumulatedTranscript ++ " [Microphone access denied]") :=
  (C7_amended (start (init true)) "not-allowed").2.2.1 rfl

/-! Claim C10. -/

/-- C10, confirmed: the stored accumulated transcript is left unchanged by
every event that carries no new final text — an interim-only `result`
event, any recognition error kind, a thrown chunked submission
(including the one that crosses the retry ceiling), and a parsed chunked
response without a non-empty trimmed transcript (unsuccessful, absent
`data`, absent transcript field, or transcript trimming to empty).
Interim text and bracketed markers reach only the string handed to the
callback. -/
theorem C10_accumulated_frame :
    ∀ s : TState,
      (∀ rs : List (Bool × String), joinFinals rs = "" →
         (step s (Ev.result rs)).accumulatedTranscript = s.accumulatedTranscript)
      ∧ (∀ k : String,
         (step s (Ev.recError k)).accumulatedTranscript = s.accumulatedTranscript)
      ∧ ((processAudioChunkComplete s .thrown).accumulatedTranscript = s.accumulatedTranscript)
      ∧ (∀ r : Response,
          r.success = false ∨ r.data = none ∨ r.data = some none ∨
            (∃ t, r.data = some (some t) ∧ jsTrim t = "") →
          (processAudioChunkComplete s (.responded r)).accumulatedTranscript
            = s.accumulatedTranscript) := by
  intro s
  refine ⟨fun rs h => ?_, fun k => ?_, ?_, fun r hr => ?_⟩
  · have hstep : step s (Ev.result rs) = onresult s rs := rfl
    rw [hstep, onresult_accum, if_pos h]
  · simp only [step, handleRecognitionError]
    split_ifs <;> simp [emit]
  · simp only [processAudioChunkComplete, chunkCatch]
    split_ifs <;> rfl
  · obtain ⟨suc, dat⟩ := r
    rcases hr with h | h | h | ⟨t, h, htr⟩ <;> simp only at h
    · subst h
      simp [processAudioChunkComplete]
    · subst h
      cases suc <;> simp [processAudioChunkComplete, chunkCatch] <;> split_ifs <;> rfl
    · subst h
      cases suc <;> simp [processAudioChunkComplete]
    · subst h
      cases suc <;> simp [processAudioChunkComplete, htr] <;> split_ifs <;> rfl

/-- C10 witness: an interim-only result event on a fresh continuous-path
session leaves the accumulated transcript untouched. -/
theorem C10_accumulated_frame_witness :
    (step (start (init true)) (Ev.result [(false, "um")])).accumulatedTranscript
      = (start (init true)).accumulatedTranscript :=
  (C10_accumulated_frame (start (init true))).1 [(false, "um")] rfl

/-! Claim C8. -/

/-- C8, confirmed: `stop` is idempotent past the first call — a second
`stop` returns the state unchanged — and a single `stop` from an active
chunked session performs exactly one release of the stream tracks, one
`mediaRecorder.stop`, one `clearInterval` and queues the single `onstop`
dispatch whose firing performs the one final-flush submission; a second
`onstop` dispatch with no queued stop is a no-op, and on the continuous
path `stop` performs exactly one `recognition.stop`. -/
theorem C8_stop_idempotent :
    ∀ (s : TState) (o o2 : FetchOutcome),
      (stop (stop s) = stop s)
      ∧ (s.isRecording = true → s.useBrowserRecognition = false → s.mediaRecorderOn = true →
         s.processingInterval = true → s.stream = true →
           (stop s).trackStops = s.trackStops + 1
         ∧ (stop s).mediaStopCount = s.mediaStopCount + 1
         ∧ (stop s).clearIntervalCount = s.clearIntervalCount + 1
         ∧ (stop s).pendingStop = true)
      ∧ (s.isRecording = true → s.useBrowserRecognition = true → s.recognitionAvail = true →
           (stop s).recStopCount = s.recStopCount + 1)
      ∧ (s.pendingStop = true → s.audioChunks.length > 0 →
           (step s (Ev.recorderStopped o)).finalSubmissions = s.finalSubmissions ++ [s.audioChunks])
      ∧ (s.pendingStop = true → (step s (Ev.recorderStopped o)).pendingStop = false)
      ∧ (s.pendingStop = false → step s (Ev.recorderStopped o2) = s) := by
  intro s o o2
  obtain ⟨ir, ubr, ra, mro, st, pi, atx, rc, lpc, ac, pr, ps, infl, out, sub, fsub,
    rsc, rstc, msc, cic, ts⟩ := s
  refine ⟨?_, fun h1 h2 h3 h4 h5 => ?_, fun h1 h2 h3 => ?_, fun h1 h2 => ?_,
    fun h1 => ?_, fun h1 => ?_⟩
  · cases ir <;> cases ubr <;> cases ra <;> cases mro <;> cases pi <;> cases st <;> simp [stop]
  · dsimp only at h1 h2 h3 h4 h5
    subst h1 h2 h3 h4 h5
    simp [stop]
  · dsimp only at h1 h2 h3
    subst h1 h2 h3
    cases mro <;> cases pi <;> cases st <;> simp [stop]
  · dsimp only at h1 h2
    subst h1
    cases o with
    | thrown => simp [step, processAudio, emit, h2]
    | responded r =>
        obtain ⟨suc, dat⟩ := r
        cases suc <;> rcases dat with _ | _ | t <;>
          simp [step, processAudio, emit, h2] <;> split_ifs <;> rfl
  · dsimp only at h1
    subst h1
    cases o with
    | thrown => by_cases h2 : 0 < ac.length <;> simp [step, processAudio, emit, h2]
    | responded r =>
        obtain ⟨suc, dat⟩ := r
        by_cases h2 : 0 < ac.length <;> cases suc <;> rcases dat with _ | _ | t <;>
          simp [step, processAudio, emit, h2] <;> split_ifs <;> rfl
  · dsimp only at h1
    subst h1
    simp [step]

/-- C8 witness: from an active chunked session with one buffered fragment,
the double-stop facts evaluated concretely. -/
theorem C8_stop_idempotent_witness :
    stop (stop (run (start (init false)) [Ev.dataAvail ⟨1500, 1⟩]))
        = stop (run (start (init false)) [Ev.dataAvail ⟨1500, 1⟩])
    ∧ (stop (run (start (init false)) [Ev.dataAvail ⟨1500, 1⟩])).trackStops
        = (run (start (init false)) [Ev.dataAvail ⟨1500, 1⟩]).trackStops + 1 :=
  ⟨(C8_stop_idempotent (run (start (init false)) [Ev.dataAvail ⟨1500, 1⟩]) .thrown .thrown).1,
   ((C8_stop_idempotent (run (start (init false)) [Ev.dataAvail ⟨1500, 1⟩]) .thrown .thrown).2.1
      rfl rfl rfl rfl rfl).1⟩

/-! Claim C4. -/

/-- C4, counterexample: chunked session, fragment 1 (1500 bytes) already
submitted and merged as "one", fragment 2 (1200 bytes) still buffered.
After `stop()` the stream tracks are already released while no
final-flush submission has happened yet; the flush then fired by the
deferred `onstop` packages BOTH fragments — not only the unsubmitted
fragment 2 — and its result "whole" is passed to the callback on its
own instead of being appended to the accumulated transcript "one". -/
theorem C4_counterexample :
    (run (start (init false)) [Ev.dataAvail ⟨1500, 1⟩,
        Ev.tick (.responded ⟨true, some (some "one")⟩), Ev.dataAvail ⟨1200, 2⟩,
        Ev.stopEv]).trackStops = 1
    ∧ (run (start (init false)) [Ev.dataAvail ⟨1500, 1⟩,
        Ev.tick (.responded ⟨true, some (some "one")⟩), Ev.dataAvail ⟨1200, 2⟩,
        Ev.stopEv]).finalSubmissions = []
    ∧ (run (start (init false)) [Ev.dataAvail ⟨1500, 1⟩,
        Ev.tick (.responded ⟨true, some (some "one")⟩), Ev.dataAvail ⟨1200, 2⟩,
        Ev.stopEv, Ev.recorderStopped (.responded ⟨true, some (some "whole")⟩)]).finalSubmissions
        = [[⟨1500, 1⟩, ⟨1200, 2⟩]]
    ∧ (run (start (init false)) [Ev.dataAvail ⟨1500, 1⟩,
        Ev.tick (.responded ⟨true, some (some "one")⟩), Ev.dataAvail ⟨1200, 2⟩,
        Ev.stopEv, Ev.recorderStopped (.responded ⟨true, some (some "whole")⟩)]).finalSubmissions
        ≠ [[⟨1200, 2⟩]]
    ∧ (run (start (init false)) [Ev.dataAvail ⟨1500, 1⟩,
        Ev.tick (.responded ⟨true, some (some "one")⟩), Ev.dataAvail ⟨1200, 2⟩,
        Ev.stopEv, Ev.recorderStopped (.responded ⟨true, some (some "whole")⟩)]).outputs
        = ["one", "whole"]
    ∧ (run (start (init false)) [Ev.dataAvail ⟨1500, 1⟩,
        Ev.tick (.responded ⟨true, some (some "one")⟩), Ev.dataAvail ⟨1200, 2⟩,
        Ev.stopEv, Ev.recorderStopped (.responded ⟨true, some (some "whole")⟩)]).accumulatedTranscript
        = "one" := by
  refine ⟨rfl, rfl, rfl, by decide, rfl, rfl⟩

/-- C4 as amended: on `stop()` in the chunked path the stream tracks are
released immediately and the `onstop` dispatch is queued with no flush
yet performed; when that dispatch fires with fragments buffered, ALL
fragments of the session — already-submitted ones included — are
packaged into the one final chunk and submitted; and a success response
with a truthy transcript passes the trimmed flush text to the callback
on its own, leaving the accumulated transcript unchanged rather than
appending to it. -/
theorem C4_amended :
    ∀ (s : TState) (o : FetchOutcome) (t : String),
      (s.isRecording = true → s.useBrowserRecognition = false → s.mediaRecorderOn = true →
       s.stream = true →
         (step s Ev.stopEv).trackStops = s.trackStops + 1
       ∧ (step s Ev.stopEv).stream = false
       ∧ (step s Ev.stopEv).pendingStop = true
       ∧ (step s Ev.stopEv).finalSubmissions = s.finalSubmissions)
      ∧ (s.pendingStop = true → s.audioChunks.length > 0 →
           (step s (Ev.recorderStopped o)).finalSubmissions
             = s.finalSubmissions ++ [s.audioChunks])
      ∧ (s.pendingStop = true → s.audioChunks.length > 0 → t ≠ "" →
           (step s (Ev.recorderStopped (.responded ⟨true, some (some t)⟩))).outputs
             = s.outputs ++ [jsTrim t]
         ∧ (step s (Ev.recorderStopped (.responded ⟨true, some (some t)⟩))).accumulatedTranscript
             = s.accumulatedTranscript) := by
  intro s o t
  obtain ⟨ir, ubr, ra, mro, st, pi, atx, rc, lpc, ac, pr, ps, infl, out, sub, fsub,
    rsc, rstc, msc, cic, ts⟩ := s
  refine ⟨fun h1 h2 h3 h4 => ?_, fun h1 h2 => ?_, fun h1 h2 h3 => ?_⟩
  · dsimp only at h1 h2 h3 h4
    subst h1 h2 h3 h4
    cases pi <;> simp [step, stop]
  · dsimp only at h1 h2
    subst h1
    cases o with
    | thrown => simp [step, processAudio, emit, h2]
    | responded r =>
        obtain ⟨suc, dat⟩ := r
        cases suc <;> rcases dat with _ | _ | t2 <;>
          simp [step, processAudio, emit, h2] <;> split_ifs <;> rfl
  · dsimp only at h1 h2
    subst h1
    simp [step, processAudio, emit, h2, h3]

/-- C4 witness: the amended stop / final-flush behaviour evaluated on the
same concrete two-fragment session. -/
theorem C4_amended_witness :
    (step (run (start (init false)) [Ev.dataAvail ⟨1500, 1⟩,
        Ev.tick (.responded ⟨true, some (some "one")⟩), Ev.dataAvail ⟨1200, 2⟩])
      Ev.stopEv).trackStops
      = (run (start (init false)) [Ev.dataAvail ⟨1500, 1⟩,
          Ev.tick (.responded ⟨true, some (some "one")⟩), Ev.dataAvail ⟨1200, 2⟩]).trackStops + 1 :=
  ((C4_amended (run (start (init false)) [Ev.dataAvail ⟨1500, 1⟩,
      Ev.tick (.responded ⟨true, some (some "one")⟩), Ev.dataAvail ⟨1200, 2⟩])
    .thrown "x").1 rfl rfl rfl rfl).1

/-! Claim C5. -/

/-- C5, counterexample: a chunk submission is in flight when `stop()` is
called (no callback has fired yet); when its response arrives after the
session has stopped, the code applies it — the callback log grows to
["late"] and the accumulated transcript becomes "late" — instead of
discarding the late response. -/
theorem C5_counterexample :
    (run (start (init false)) [Ev.dataAvail ⟨1500, 1⟩, Ev.tickSend,
        Ev.stopEv]).isRecording = false
    ∧ (run (start (init false)) [Ev.dataAvail ⟨1500, 1⟩, Ev.tickSend,
        Ev.stopEv]).outputs = []
    ∧ (run (start (init false)) [Ev.dataAvail ⟨1500, 1⟩, Ev.tickSend, Ev.stopEv,
        Ev.tickComplete (.responded ⟨true, some (some "late")⟩)]).outputs = ["late"]
    ∧ (run (start (init false)) [Ev.dataAvail ⟨1500, 1⟩, Ev.tickSend, Ev.stopEv,
        Ev.tickComplete (.responded ⟨true, some (some "late")⟩)]).accumulatedTranscript
        = "late" := by
  refine ⟨rfl, rfl, rfl, rfl⟩

/-- C5 as amended: `stop()` clears the windowing interval, so no new chunk
submission starts after it, but a submission already in flight is not
discarded — `stop` leaves the in-flight marker untouched, and when the
response arrives while the session is stopped its non-empty trimmed
transcript is still appended to the accumulated transcript and handed to
the callback. The final-flush response likewise invokes the callback
after `stop()` (claim C4's theorems). -/
theorem C5_amended :
    ∀ (s : TState) (t : String),
      (s.isRecording = true → (stop s).processingInterval = false)
      ∧ (s.processingInterval = false → step s Ev.tickSend = s)
      ∧ ((stop s).inflight = s.inflight)
      ∧ (s.inflight = true → s.isRecording = false → jsTrim t ≠ "" →
          (step s (Ev.tickComplete (.responded ⟨true, some (some t)⟩))).outputs
            = s.outputs ++ [appendFinal s.accumulatedTranscript (jsTrim t)]
        ∧ (step s (Ev.tickComplete (.responded ⟨true, some (some t)⟩))).accumulatedTranscript
            = appendFinal s.accumulatedTranscript (jsTrim t)) := by
  intro s t
  refine ⟨fun h1 => ?_, fun h1 => ?_, ?_, fun h1 h2 h3 => ?_⟩
  · obtain ⟨ir, ubr, ra, mro, st, pi, atx, rc, lpc, ac, pr, ps, infl, out, sub, fsub,
      rsc, rstc, msc, cic, ts⟩ := s
    dsimp only at h1
    subst h1
    cases ubr <;> cases ra <;> cases mro <;> cases pi <;> cases st <;> simp [stop]
  · simp [step, tickGuard, h1]
  · obtain ⟨ir, ubr, ra, mro, st, pi, atx, rc, lpc, ac, pr, ps, infl, out, sub, fsub,
      rsc, rstc, msc, cic, ts⟩ := s
    cases ir <;> cases ubr <;> cases ra <;> cases mro <;> cases pi <;> cases st <;> simp [stop]
  · have h4 : t ≠ "" := by
      intro h
      rw [h] at h3
      exact h3 rfl
    simp [step, h1, processAudioChunkComplete, h3, h4]

/-- C5 witness: the amended in-flight facts evaluated on the concrete
stopped session with the pending "late" response. -/
theorem C5_amended_witness :
    (step (run (start (init false)) [Ev.dataAvail ⟨1500, 1⟩, Ev.tickSend, Ev.stopEv])
        (Ev.tickComplete (.responded ⟨true, some (some "late")⟩))).outputs
      = (run (start (init false)) [Ev.dataAvail ⟨1500, 1⟩, Ev.tickSend, Ev.stopEv]).outputs ++
          [appendFinal (run (start (init false)) [Ev.dataAvail ⟨1500, 1⟩, Ev.tickSend,
              Ev.stopEv]).accumulatedTranscript (jsTrim "late")] :=
  ((C5_amended (run (start (init false)) [Ev.dataAvail ⟨1500, 1⟩, Ev.tickSend, Ev.stopEv])
      "late").2.2.2 rfl rfl (by decide)).1

end MeetingNotes
